import Mathlib

/-!
Shallow embedding of the ridership-extraction pipeline (`src/extractor.py`).

Conventions of the embedding:
* A spreadsheet cell value is `Cell`: a Python `int`, `str`, or `None`.
* Cleaned ridership values are `Val`: a Python `int` or the `np.nan`
  sentinel appended by `extract_ridership`.
* Python exceptions that the pipeline can raise or catch are `PyErr`;
  fallible code returns `Except PyErr _`.
* Python dicts are association lists `List (String × α)` with insertion
  order preserved; assignment to an existing key overwrites in place
  (`aset`), `del d[k]` is `dictDelete`, and `d[k] += v` is `dictAddTo`.
-/

namespace Metro

/-- A cell value as produced by the spreadsheet reader: an integer, a
string, or the empty cell (`None` in Python; openpyxl yields `None` for
cells inside the requested window that hold no value). -/
inductive Cell
  | int (n : Int)
  | str (s : String)
  | none
deriving DecidableEq, Repr

/-- `isinstance(cell, int)` for a cell value. -/
def Cell.isInt : Cell → Bool
  | .int _ => true
  | _ => false

/-- `isinstance(cell, str)` for a cell value. -/
def Cell.isStr : Cell → Bool
  | .str _ => true
  | _ => false

/-- `cell is None` for a cell value. -/
def Cell.isNone : Cell → Bool
  | .none => true
  | _ => false

/-- Python `cell == s` where `s` is a string literal: only a string cell
with the same contents compares equal; `None` and integers compare
unequal to a string. -/
def cellEqStr : Cell → String → Bool
  | .str s, t => s = t
  | _, _ => false

/-- A cleaned ridership value: an integer, or the `np.nan` placeholder
substituted for a missing cell (extractor.py line 52). -/
inductive Val
  | int (n : Int)
  | nan
deriving DecidableEq, Repr

/-- The Python exceptions relevant to the pipeline.  `valueError` is the
only class caught by `compile_values` (extractor.py line 173);
`keyError` is raised by `wb["Daily"]` on a missing sheet and by
`del d[k]` / `d[k] += v` on a missing key; `indexError` by out-of-range
list indexing; `invalidFile` stands for the exceptions `load_workbook`
raises on a file it cannot open or parse (`InvalidFileException`,
`BadZipFile` — none of them a `ValueError`). -/
inductive PyErr
  | valueError
  | keyError
  | indexError
  | invalidFile
deriving DecidableEq, Repr

/-- Cell of a row/column at position `i`.  Rows and columns handed to the
extractors come from `get_col_rows`, which (like openpyxl's
`iter_rows`/`iter_cols` bounded to a fixed window) always yields
sequences covering the full requested window, so the index is in range
there and this equals Python's `row[i]`. -/
def cellAt (row : List Cell) (i : Nat) : Cell := row.getD i Cell.none

/-- Python list indexing with a non-negative index: `l[i]`, raising
`IndexError` when out of range. -/
def pyGet {α : Type} (l : List α) (i : Nat) : Except PyErr α :=
  match l.get? i with
  | some x => .ok x
  | Option.none => .error .indexError

/-- `d.get(k)`-style lookup in an insertion-ordered dict. -/
def aget {α : Type} (d : List (String × α)) (k : String) : Option α :=
  (d.find? (fun p => p.1 = k)).map (fun p => p.2)

/-- Membership test `k in d` for an insertion-ordered dict. -/
def hasKey {α : Type} (d : List (String × α)) (k : String) : Bool :=
  d.any (fun p => p.1 = k)

/-- Python dict assignment `d[k] = v`: overwrites in place when the key
is present (keeping its position), otherwise appends the new entry. -/
def aset {α : Type} (d : List (String × α)) (k : String) (v : α) :
    List (String × α) :=
  if hasKey d k then d.map (fun p => if p.1 = k then (k, v) else p)
  else d ++ [(k, v)]

/-- Python `del d[k]`: removes the entry, raising `KeyError` when the
key is absent (extractor.py line 64). -/
def dictDelete {α : Type} (d : List (String × α)) (k : String) :
    Except PyErr (List (String × α)) :=
  if hasKey d k then .ok (d.filter (fun p => p.1 ≠ k))
  else .error .keyError

/-- Python `d[k] += v` on a dict of lists: concatenates onto the
existing entry, raising `KeyError` when the key is absent
(extractor.py line 166). -/
def dictAddTo (d : List (String × List Val)) (k : String) (v : List Val) :
    Except PyErr (List (String × List Val)) :=
  if hasKey d k then
    .ok (d.map (fun p => if p.1 = k then (p.1, p.2 ++ v) else p))
  else .error .keyError

/-- What a workbook file on disk amounts to for the pipeline.
Modelled from the behavior of the external spreadsheet library
(openpyxl): `unreadable` is a file `load_workbook` rejects
(`InvalidFileException`/`BadZipFile`); `parseError` is a workbook whose
parsing raises a `ValueError` (for example a malformed date cell);
`noDaily` is a workbook that opens but has no sheet named "Daily", so
`wb["Daily"]` raises `KeyError`; `daily g` is a workbook whose "Daily"
sheet holds the grid `g` (its rows, row 1 .. max_row). -/
inductive FileContent
  | unreadable
  | parseError
  | noDaily
  | daily (grid : List (List Cell))
deriving DecidableEq, Repr

/-- An input workbook file: its filename and what opening it yields. -/
structure ExcelFile where
  name : String
  content : FileContent
deriving DecidableEq, Repr

/-- Row-major view of the "Daily" sheet: rows 1..max_row, columns 1..27
(`iter_rows(min_row=1, max_row=table_total_rows, min_col=1, max_col=27,
values_only=True)`, extractor.py line 22).  openpyxl pads each row to
the requested column window with `None`. -/
def tableRowsOf (grid : List (List Cell)) : List (List Cell) :=
  grid.map (fun r => (List.range 27).map (fun j => cellAt r j))

/-- Column-major view of the "Daily" sheet: columns 2..27 over rows
1..max_row (`iter_cols(min_col=2, max_col=27, min_row=1,
max_row=table_total_rows, values_only=True)`, extractor.py line 21). -/
def tableColsOf (grid : List (List Cell)) : List (List Cell) :=
  (List.range 26).map (fun j => grid.map (fun r => cellAt r (j + 1)))

/-- `get_col_rows` (extractor.py lines 8–27): open the workbook, select
the "Daily" sheet and return the column-major and row-major views.  A
file that cannot be opened raises the loader's exception; a workbook
without a "Daily" sheet raises `KeyError`; a parse failure inside the
loader raises `ValueError`. -/
def get_col_rows (f : ExcelFile) :
    Except PyErr (List (List Cell) × List (List Cell)) :=
  match f.content with
  | .unreadable => .error .invalidFile
  | .parseError => .error .valueError
  | .noDaily => .error .keyError
  | .daily g => .ok (tableColsOf g, tableRowsOf g)

/-- Pythonic index of the reference column `col_list[idx_col - 1]`
(extractor.py line 48): for `idx_col = 0` Python's `-1` wraps to the
last column of a list of length `n`. -/
def pyRefIndex (n idx : Nat) : Nat :=
  if idx = 0 then n - 1 else idx - 1

/-- The inner cell loop of `extract_ridership` over one column
(extractor.py lines 47–58), carrying the reference column and the cell
index.  For each cell the reference cell `col_list[idx_col-1][idx_cell]`
is read first (raising `IndexError` when the reference column is
shorter); an empty cell whose reference cell is an integer contributes
`np.nan`; an integer cell contributes itself; a string cell goes to the
label-candidate list. -/
def columnScanAux (ref : List Cell) (idx : Nat) (vals : List Val)
    (strs : List String) : List Cell → Except PyErr (List Val × List String)
  | [] => .ok (vals, strs)
  | cell :: rest => do
    let referenceCell ← pyGet ref idx
    let vals' := if cell.isNone then
        (if referenceCell.isInt then vals ++ [Val.nan] else vals)
      else vals
    let vals'' := match cell with
      | .int n => vals' ++ [Val.int n]
      | _ => vals'
    let strs' := match cell with
      | .str s => strs ++ [s]
      | _ => strs
    columnScanAux ref (idx + 1) vals'' strs' rest

/-- The outer column loop of `extract_ridership` (extractor.py lines
42–62): for each column, scan its cells against the (Pythonically
previous) reference column, take `str_list[0]` as the station name
(raising `IndexError` when the column has no string cell) and assign
the value series under that name. -/
def ridershipAux (colList : List (List Cell)) (idx : Nat)
    (d : List (String × List Val)) :
    List (List Cell) → Except PyErr (List (String × List Val))
  | [] => .ok d
  | col :: rest => do
    let ref ← pyGet colList (pyRefIndex colList.length idx)
    let scanned ← columnScanAux ref 0 [] [] col
    let stationName ← pyGet scanned.2 0
    ridershipAux colList (idx + 1) (aset d stationName scanned.1) rest

/-- `extract_ridership` (extractor.py lines 29–66): build the
station-name → value-series dict from the column view, then
unconditionally `del station_riders_dict["Exit"]`. -/
def extract_ridership (colList : List (List Cell)) :
    Except PyErr (List (String × List Val)) := do
  let d ← ridershipAux colList 0 [] colList
  dictDelete d "Exit"

/-- The signal test of the row extractors: `isinstance(row[5], int)`
(extractor.py lines 82 and 107). -/
def qualifies (row : List Cell) : Bool := (cellAt row 5).isInt

/-- The day-boundary test of `generate_date`: `row[1] == "Entry"`
(extractor.py line 104). -/
def isEntry (row : List Cell) : Bool := cellEqStr (cellAt row 1) "Entry"

/-- `extract_time` (extractor.py lines 68–85): collect `row[0]` for
every row whose signal cell `row[5]` is an integer. -/
def extract_time (rowList : List (List Cell)) : List Cell :=
  rowList.foldl
    (fun acc row => if qualifies row then acc ++ [cellAt row 0] else acc) []

/-- The year-month label `excel_file.split(".")[0]` (extractor.py line
101): the filename text before the first dot.  (Python's
`split(".")[0]` is exactly the longest dot-free prefix; stated on the
character list so it evaluates by kernel reduction.) -/
def yearMonth (excel_file : String) : String :=
  String.mk (excel_file.toList.takeWhile (fun c => c ≠ '.'))

/-- The date token `f"{year_month}-{day}"` (extractor.py line 108). -/
def mkToken (ym : String) (day : Nat) : String :=
  ym ++ "-" ++ toString day

/-- One iteration of the `generate_date` loop (extractor.py lines
103–108), on the state (day counter, tokens so far): the counter is
incremented first when the marker is present, then — if the row
qualifies — the token built from the (possibly just incremented)
counter is appended. -/
def genDateStep (ym : String) (st : Nat × List String) (row : List Cell) :
    Nat × List String :=
  let day := if isEntry row then st.1 + 1 else st.1
  let ds := if qualifies row then st.2 ++ [mkToken ym day] else st.2
  (day, ds)

/-- `generate_date` (extractor.py lines 87–110): fold the per-row step
over the row view, starting from day counter 0 and no tokens. -/
def generate_date (rowList : List (List Cell)) (excel_file : String) :
    List String :=
  (rowList.foldl (genDateStep (yearMonth excel_file)) (0, [])).2

/-- The value of the day counter after the rows `rowList` have been
processed by the `generate_date` loop. -/
def dayAfter (ym : String) (rowList : List (List Cell)) : Nat :=
  (rowList.foldl (genDateStep ym) (0, [])).1

/-- The running aggregate of `compile_values` (extractor.py lines
146–148), plus the diagnostics it emits (the per-file `troubleshoot`
log block and the "skipped" notes printed on a caught `ValueError`),
modelled as a list of note strings. -/
structure AggState where
  time_list : List Cell
  dates_list : List String
  station_dict : List (String × List Val)
  notes : List String
deriving DecidableEq, Repr

/-- The station-dict merge of `compile_values` (extractor.py lines
164–169): when the accumulated dict is non-empty (`if station_dict:`),
run `station_dict[station] += values` for each incoming entry (a
missing key raises `KeyError`); when it is empty, run
`station_dict[station] = values` for each incoming entry. -/
def mergeStations (acc incoming : List (String × List Val)) :
    Except PyErr (List (String × List Val)) :=
  if acc.isEmpty then
    .ok (incoming.foldl (fun d p => aset d p.1 p.2) acc)
  else
    incoming.foldlM (fun d p => dictAddTo d p.1 p.2) acc

/-- The body of one successful iteration of the `compile_values` loop
after the per-file extraction (extractor.py lines 158–171): append the
file's times and dates onto the running sequences, merge its station
dict, and record the `troubleshoot` log block. -/
def accumulate (st : AggState) (times : List Cell) (dates : List String)
    (srd : List (String × List Val)) (fname : String) :
    Except PyErr AggState :=
  match mergeStations st.station_dict srd with
  | .ok sd => .ok { time_list := st.time_list ++ times,
                    dates_list := st.dates_list ++ dates,
                    station_dict := sd,
                    notes := st.notes ++ [fname ++ " Summary"] }
  | .error e => .error e

/-- The per-file extraction of the `compile_values` loop body
(extractor.py lines 152–156). -/
def processFile (f : ExcelFile) :
    Except PyErr (List Cell × List String × List (String × List Val)) := do
  let views ← get_col_rows f
  let times := extract_time views.2
  let dates := generate_date views.2 f.name
  let srd ← extract_ridership views.1
  .ok (times, dates, srd)

/-- The whole try-block of one `compile_values` iteration (extractor.py
lines 151–171): per-file extraction followed by the merge into the
running aggregate. -/
def tryBody (st : AggState) (f : ExcelFile) : Except PyErr AggState := do
  let r ← processFile f
  accumulate st r.1 r.2.1 r.2.2 f.name

/-- One iteration of the `compile_values` loop (extractor.py lines
150–175): run the try-block; `except ValueError` records the
"skipped" note and leaves the aggregate untouched; any other exception
propagates and aborts the batch. -/
def compileStep (st : AggState) (f : ExcelFile) : Except PyErr AggState :=
  match tryBody st f with
  | .ok st' => .ok st'
  | .error .valueError =>
      .ok { st with notes := st.notes ++ [f.name ++ " skipped."] }
  | .error e => .error e

/-- `compile_values` (extractor.py lines 136–179): fold the per-file
step over the batch, starting from the empty aggregate.  An exception
other than `ValueError` escaping the loop body crashes the run, so the
whole batch returns that error. -/
def compile_values (fileList : List ExcelFile) : Except PyErr AggState :=
  fileList.foldlM compileStep
    { time_list := [], dates_list := [], station_dict := [], notes := [] }

/-- A value of the final exported mapping: the "time" sequence, the
"date" sequence, or one station's aggregated series. -/
inductive Field
  | times (ts : List Cell)
  | dates (ds : List String)
  | station (vs : List Val)
deriving DecidableEq, Repr

/-- `merge_to_json` (extractor.py lines 181–202), up to the JSON
serialization (out of scope): build the final mapping with key "date",
then "time", then one entry per station in dict order. -/
def merge_to_json (time_list : List Cell) (dates_list : List String)
    (station_dict : List (String × List Val)) : List (String × Field) :=
  let m := aset ([] : List (String × Field)) "date" (Field.dates dates_list)
  let m := aset m "time" (Field.times time_list)
  station_dict.foldl (fun m p => aset m p.1 (Field.station p.2)) m

/-- All string cells of a column, in cell order (the `str_list` that
the inner loop of `extract_ridership` accumulates). -/
def colTexts (col : List Cell) : List String :=
  col.filterMap (fun c => match c with | .str s => some s | _ => Option.none)

/-- The first string cell of a column — the station name
`extract_ridership` would assign to it. -/
def firstText (col : List Cell) : Option String :=
  (colTexts col).head?

/-! ### Concrete workbook data used by the scenario claims -/

/-- Header/marker row of the scenario workbook: the "Entry" day marker
in column 2, the station label "North" in the signal column 6, and the
"Exit" footer label in every other data column (production sheets carry
a label in each of columns 2..27; `extract_ridership` requires one, and
requires some column to be labeled "Exit"). -/
def hdrRow : List Cell :=
  [Cell.none, Cell.str "Entry", Cell.str "Exit", Cell.str "Exit",
   Cell.str "Exit", Cell.str "North"] ++ List.replicate 21 (Cell.str "Exit")

/-- Hourly observation row `h` of the scenario workbook: the hour in
column 1 and the "North" ridership value in the signal column 6. -/
def hourRow (h : Nat) : List Cell :=
  [Cell.int h, Cell.none, Cell.none, Cell.none, Cell.none, Cell.int h] ++
    List.replicate 21 Cell.none

/-- The scenario "Daily" sheet: one "Entry" marker row followed by 24
hourly rows with first-column values 0..23 and "North" values 0..23. -/
def wbGrid : List (List Cell) := hdrRow :: (List.range 24).map hourRow

/-- Header row of the *minimal* realization of the scenario sheet:
only the cells the scenario sentence describes (the "Entry" marker and
the "North" label), every other cell empty. -/
def minHdrRow : List Cell :=
  [Cell.none, Cell.str "Entry", Cell.none, Cell.none, Cell.none,
   Cell.str "North"]

/-- The minimal scenario sheet: the marker row and the 24 hourly rows,
with no other content. -/
def minGrid : List (List Cell) := minHdrRow :: (List.range 24).map hourRow

/-- A small valid one-observation workbook grid (stations "S" and the
"Exit" footer), used to show that a valid file after a failing one
would still aggregate. -/
def smallGrid : List (List Cell) :=
  [[Cell.none, Cell.str "Entry", Cell.str "Exit", Cell.str "Exit",
    Cell.str "Exit", Cell.str "S"] ++ List.replicate 21 (Cell.str "Exit"),
   [Cell.int 8, Cell.none, Cell.none, Cell.none, Cell.none, Cell.int 3] ++
    List.replicate 21 Cell.none]

/-- The hour tokens 0..23 of one scenario file. -/
def timesOf : List Cell := (List.range 24).map (fun h => Cell.int h)

/-- The "North" values 0..23 of one scenario file. -/
def northOf : List Val := (List.range 24).map (fun h => Val.int h)

/-- The aggregate produced by compiling the two scenario workbooks. -/
def c3st : AggState :=
  { time_list := timesOf ++ timesOf,
    dates_list := List.replicate 24 "2024-01-1" ++ List.replicate 24 "2024-02-1",
    station_dict := [("Entry", []), ("North", northOf ++ northOf)],
    notes := ["2024-01.xlsx Summary", "2024-02.xlsx Summary"] }

end Metro

deriving instance DecidableEq for Except

namespace Metro

/-! ### Supporting lemmas on the row extractors -/

/-- Length of the `extract_time` fold: one token per qualifying row. -/
theorem time_foldl_length (rows : List (List Cell)) (acc : List Cell) :
    (rows.foldl (fun a row => if qualifies row then a ++ [cellAt row 0] else a)
        acc).length = acc.length + rows.countP qualifies := by
  induction rows generalizing acc with
  | nil => simp
  | cons r rs ih =>
    rw [List.foldl_cons, List.countP_cons, ih]
    by_cases h : qualifies r
    · simp [h]
      omega
    · simp [h]

/-- State of the `generate_date` fold after any rows, from any starting
state: the counter grows by the number of marker rows and the token
list by one token per qualifying row. -/
theorem genDate_foldl (ym : String) (rows : List (List Cell)) :
    ∀ (day : Nat) (acc : List String),
      (rows.foldl (genDateStep ym) (day, acc)).1 = day + rows.countP isEntry ∧
      ((rows.foldl (genDateStep ym) (day, acc)).2).length
        = acc.length + rows.countP qualifies := by
  induction rows with
  | nil => intro day acc; simp
  | cons r rs ih =>
    intro day acc
    rw [List.foldl_cons, List.countP_cons, List.countP_cons]
    have h := ih (if isEntry r then day + 1 else day)
      (if qualifies r then
        acc ++ [mkToken ym (if isEntry r then day + 1 else day)] else acc)
    simp only [genDateStep]
    by_cases h1 : isEntry r <;> by_cases h2 : qualifies r <;>
      simp [h1, h2] at h ⊢ <;> omega

/-- The day counter after a row list equals its count of marker rows. -/
theorem dayAfter_eq_countP (ym : String) (rows : List (List Cell)) :
    dayAfter ym rows = rows.countP isEntry := by
  have h := (genDate_foldl ym rows 0 []).1
  simpa [dayAfter] using h

/-- `generate_date` emits one token per qualifying row. -/
theorem generate_date_length (rows : List (List Cell)) (f : String) :
    (generate_date rows f).length = rows.countP qualifies := by
  have h := (genDate_foldl (yearMonth f) rows 0 []).2
  simpa [generate_date] using h

/-- `extract_time` emits one token per qualifying row. -/
theorem extract_time_length (rows : List (List Cell)) :
    (extract_time rows).length = rows.countP qualifies := by
  have h := time_foldl_length rows []
  simpa [extract_time] using h

end Metro

namespace Metro

/-! ### Claim C4 -/

/-- C4: for every workbook's row list, the number of date tokens
produced by `generate_date` equals the number of time tokens produced
by `extract_time`, and both equal the number of qualifying rows (rows
whose signal-column cell holds an integer). -/
theorem c4_per_file_token_counts (g : List (List Cell)) (fname : String) :
    (generate_date (tableRowsOf g) fname).length
      = (extract_time (tableRowsOf g)).length ∧
    (extract_time (tableRowsOf g)).length
      = (tableRowsOf g).countP qualifies := by
  rw [generate_date_length, extract_time_length]
  exact ⟨rfl, rfl⟩

/-! ### Claim C7 -/

/-- C7: over every workbook's row list, the day counter maintained by
`generate_date` is monotonically non-decreasing along the row sequence,
changes at each row by exactly 1 when the row carries the "Entry"
marker in the second column and by 0 otherwise, and in total increments
once per marker occurrence. -/
theorem c7_day_counter (g : List (List Cell)) (ym : String) :
    (∀ i j, i ≤ j →
      dayAfter ym ((tableRowsOf g).take i)
        ≤ dayAfter ym ((tableRowsOf g).take j)) ∧
    (∀ i, (h : i < (tableRowsOf g).length) →
      dayAfter ym ((tableRowsOf g).take (i + 1))
        = dayAfter ym ((tableRowsOf g).take i)
          + (if isEntry ((tableRowsOf g).get ⟨i, h⟩) then 1 else 0)) ∧
    dayAfter ym (tableRowsOf g) = (tableRowsOf g).countP isEntry := by
  refine ⟨?_, ?_, dayAfter_eq_countP ym _⟩
  · intro i j hij
    rw [dayAfter_eq_countP, dayAfter_eq_countP]
    have h1 : (tableRowsOf g).take i = ((tableRowsOf g).take j).take i := by
      rw [List.take_take, Nat.min_eq_left hij]
    rw [h1]
    exact (List.take_prefix _ _).countP_le _
  · intro i h
    rw [dayAfter_eq_countP, dayAfter_eq_countP, List.take_succ]
    have h2 : (tableRowsOf g)[i]? = some ((tableRowsOf g).get ⟨i, h⟩) := by
      rw [List.getElem?_eq_getElem h, List.get_eq_getElem]
    rw [h2, List.countP_append]
    simp [List.countP_cons]

/-- Witness for C7 at a concrete workbook: the counter after the marker
row of the scenario workbook bounds the counter after no rows. -/
theorem c7_day_counter_witness :
    dayAfter "2024-01" ((tableRowsOf wbGrid).take 0)
      ≤ dayAfter "2024-01" ((tableRowsOf wbGrid).take 1) :=
  (c7_day_counter wbGrid "2024-01").1 0 1 (by decide)

/-! ### Claim C8 -/

/-- C8: a row carrying the "Entry" marker whose signal cell also holds
an integer increments the day counter exactly once, and the date token
recorded for that row is built from the already-incremented counter. -/
theorem c8_marker_increments_before_token (f : String)
    (pre : List (List Cell)) (row : List Cell)
    (hm : isEntry row = true) (hq : qualifies row = true) :
    dayAfter (yearMonth f) (pre ++ [row])
      = dayAfter (yearMonth f) pre + 1 ∧
    generate_date (pre ++ [row]) f
      = generate_date pre f
        ++ [mkToken (yearMonth f) (dayAfter (yearMonth f) pre + 1)] := by
  constructor
  · simp [dayAfter, List.foldl_append, genDateStep, hm]
  · simp [generate_date, dayAfter, List.foldl_append, genDateStep, hm, hq]

/-- Witness for C8: a concrete marker-and-signal row after an empty
prefix yields the token for day 1 and a counter of 1. -/
theorem c8_witness :
    dayAfter (yearMonth "2024-01.xlsx")
        ([] ++ [[Cell.int 0, Cell.str "Entry", Cell.none, Cell.none,
                 Cell.none, Cell.int 5]])
      = dayAfter (yearMonth "2024-01.xlsx") [] + 1 ∧
    generate_date
        ([] ++ [[Cell.int 0, Cell.str "Entry", Cell.none, Cell.none,
                 Cell.none, Cell.int 5]]) "2024-01.xlsx"
      = generate_date [] "2024-01.xlsx"
        ++ [mkToken (yearMonth "2024-01.xlsx")
              (dayAfter (yearMonth "2024-01.xlsx") [] + 1)] :=
  c8_marker_increments_before_token "2024-01.xlsx" []
    [Cell.int 0, Cell.str "Entry", Cell.none, Cell.none, Cell.none, Cell.int 5]
    (by decide) (by decide)

end Metro

namespace Metro

/-! ### Claim C1 -/

/-- C1 (divergence witness): a workbook lacking a "Daily" sheet makes
`wb["Daily"]` raise `KeyError`, which `compile_values` — catching only
`ValueError` — does not treat as a per-file skip: the batch aborts, no
"skipped" note is emitted and the subsequent valid file is lost.  By
contrast a workbook whose parsing raises a `ValueError` is skipped with
the "skipped" note and the following valid file still aggregates. -/
theorem c1_missing_sheet_aborts_batch :
    compile_values
        [⟨"2023-01.xlsx", FileContent.noDaily⟩,
         ⟨"2023-02.xlsx", FileContent.daily smallGrid⟩]
      = .error .keyError ∧
    compile_values
        [⟨"2023-01.xlsx", FileContent.unreadable⟩,
         ⟨"2023-02.xlsx", FileContent.daily smallGrid⟩]
      = .error .invalidFile ∧
    compile_values
        [⟨"2023-01.xlsx", FileContent.parseError⟩,
         ⟨"2023-02.xlsx", FileContent.daily smallGrid⟩]
      = .ok { time_list := [Cell.int 8], dates_list := ["2023-02-1"],
              station_dict := [("Entry", []), ("S", [Val.int 3])],
              notes := ["2023-01.xlsx skipped.", "2023-02.xlsx Summary"] } := by
  refine ⟨by decide, by decide, by decide⟩

/-! ### Claim C3 -/

/-- C3 (counterexample): realizing the scenario sheets with exactly the
cells the claim describes — one "Entry" marker row followed by 24
hourly rows with first-column values 0..23 and "North" values 0..23,
nothing else — the pipeline crashes with an `IndexError` (the first
all-empty data column has no text cell for `str_list[0]`), so no output
mapping is produced at all. -/
theorem c3_minimal_scenario_crashes :
    compile_values
        [⟨"2024-01.xlsx", FileContent.daily minGrid⟩,
         ⟨"2024-02.xlsx", FileContent.daily minGrid⟩]
      = .error .indexError := by
  decide

/-- C3 (amended): on scenario workbooks whose "Daily" sheets carry, in
addition to the described marker row and 24 hourly rows, a text label
in every data column and an "Exit" footer label (as production sheets
do), the pipeline output mapping contains
"date" = 24 × "2024-01-1" ++ 24 × "2024-02-1", "time" = 0..23 twice and
"North" = 0..23 twice. -/
theorem c3_end_to_end :
    compile_values
        [⟨"2024-01.xlsx", FileContent.daily wbGrid⟩,
         ⟨"2024-02.xlsx", FileContent.daily wbGrid⟩]
      = .ok c3st ∧
    aget (merge_to_json c3st.time_list c3st.dates_list c3st.station_dict)
        "date"
      = some (Field.dates (List.replicate 24 "2024-01-1"
          ++ List.replicate 24 "2024-02-1")) ∧
    aget (merge_to_json c3st.time_list c3st.dates_list c3st.station_dict)
        "time"
      = some (Field.times (timesOf ++ timesOf)) ∧
    aget (merge_to_json c3st.time_list c3st.dates_list c3st.station_dict)
        "North"
      = some (Field.station (northOf ++ northOf)) := by
  refine ⟨by decide, by decide, by decide, by decide⟩

end Metro

namespace Metro

/-! ### Claim C5 -/

/-- C5: scanning the column `["StationA", 5, None, 7]` against any
reference column of matching extent yields the series `[5, nan, 7]`
when the reference cell at the missing index is an integer and
`[5, 7]` when it is not, labeled "StationA"; correspondingly
`extract_ridership` produces those series for station "StationA" on
concrete two-column inputs. -/
theorem c5_missing_cell_inference (ref : List Cell) (h4 : 4 ≤ ref.length) :
    ((cellAt ref 2).isInt = true →
      columnScanAux ref 0 [] []
          [Cell.str "StationA", Cell.int 5, Cell.none, Cell.int 7]
        = .ok ([Val.int 5, Val.nan, Val.int 7], ["StationA"])) ∧
    ((cellAt ref 2).isInt = false →
      columnScanAux ref 0 [] []
          [Cell.str "StationA", Cell.int 5, Cell.none, Cell.int 7]
        = .ok ([Val.int 5, Val.int 7], ["StationA"])) ∧
    extract_ridership
        [[Cell.str "Exit", Cell.int 1, Cell.int 2, Cell.int 3],
         [Cell.str "StationA", Cell.int 5, Cell.none, Cell.int 7]]
      = .ok [("StationA", [Val.int 5, Val.nan, Val.int 7])] ∧
    extract_ridership
        [[Cell.str "Exit", Cell.int 1, Cell.str "x", Cell.int 3],
         [Cell.str "StationA", Cell.int 5, Cell.none, Cell.int 7]]
      = .ok [("StationA", [Val.int 5, Val.int 7])] := by
  refine ⟨?_, ?_, by decide, by decide⟩ <;>
    rcases ref with _ | ⟨a, _ | ⟨b, _ | ⟨c, _ | ⟨d, rest⟩⟩⟩⟩ <;>
      simp at h4 <;> intro hc <;> simp [cellAt] at hc <;>
        cases c <;> (try simp [Cell.isInt] at hc) <;> rfl

/-- Witness for C5: the integer-reference branch at the concrete
reference column `["Exit", 1, 2, 3]`. -/
theorem c5_witness :
    columnScanAux [Cell.str "Exit", Cell.int 1, Cell.int 2, Cell.int 3]
        0 [] [] [Cell.str "StationA", Cell.int 5, Cell.none, Cell.int 7]
      = .ok ([Val.int 5, Val.nan, Val.int 7], ["StationA"]) :=
  (c5_missing_cell_inference
      [Cell.str "Exit", Cell.int 1, Cell.int 2, Cell.int 3]
      (by decide)).1 (by decide)

end Metro

namespace Metro

/-! ### Supporting lemmas on the dict model -/

theorem aget_cons {α : Type} (p : String × α) (ds : List (String × α))
    (k : String) :
    aget (p :: ds) k = if p.1 = k then some p.2 else aget ds k := by
  by_cases h : p.1 = k <;> simp [aget, List.find?_cons, h]

theorem hasKey_cons {α : Type} (p : String × α) (ds : List (String × α))
    (k : String) :
    hasKey (p :: ds) k = (decide (p.1 = k) || hasKey ds k) := by
  simp [hasKey]

theorem aget_none_iff {α : Type} (d : List (String × α)) (k : String) :
    aget d k = Option.none ↔ ∀ p ∈ d, p.1 ≠ k := by
  simp [aget, List.find?_eq_none]

theorem hasKey_false_iff {α : Type} (d : List (String × α)) (k : String) :
    hasKey d k = false ↔ ∀ p ∈ d, p.1 ≠ k := by
  simp [hasKey]

theorem hasKey_iff_isSome {α : Type} (d : List (String × α)) (k : String) :
    hasKey d k = true ↔ (aget d k).isSome = true := by
  induction d with
  | nil => simp [hasKey, aget]
  | cons p ds ih =>
    by_cases h : p.1 = k <;> simp [hasKey_cons, aget_cons, h, ih]

theorem aget_eq_none_of_hasKey_false {α : Type} {d : List (String × α)}
    {k : String} (h : hasKey d k = false) : aget d k = Option.none := by
  rw [aget_none_iff]
  exact (hasKey_false_iff d k).mp h

theorem aget_append_right {α : Type} {d1 : List (String × α)} {k : String}
    (d2 : List (String × α)) (h : aget d1 k = Option.none) :
    aget (d1 ++ d2) k = aget d2 k := by
  induction d1 with
  | nil => simp
  | cons p ds ih =>
    rw [aget_cons] at h
    by_cases hp : p.1 = k
    · simp [hp] at h
    · rw [List.cons_append, aget_cons, if_neg hp]
      exact ih (by simpa [hp] using h)

theorem aget_append_single_ne {α : Type} {k k' : String} (h : k' ≠ k)
    (d : List (String × α)) (v : α) :
    aget (d ++ [(k, v)]) k' = aget d k' := by
  induction d with
  | nil => simp [aget_cons, aget, Ne.symm h]
  | cons p ds ih =>
    by_cases hp : p.1 = k' <;> simp [aget_cons, hp, ih]

theorem aget_map_update_self {α : Type} {d : List (String × α)} {k : String}
    (v : α) (h : hasKey d k = true) :
    aget (d.map (fun p => if p.1 = k then (k, v) else p)) k = some v := by
  induction d with
  | nil => simp [hasKey] at h
  | cons p ds ih =>
    by_cases hp : p.1 = k
    · simp [aget_cons, hp]
    · rw [hasKey_cons] at h
      simp [hp] at h
      simpa [aget_cons, hp] using ih h

theorem aget_map_update_ne {α : Type} {k k' : String} (h : k' ≠ k)
    (d : List (String × α)) (v : α) :
    aget (d.map (fun p => if p.1 = k then (k, v) else p)) k' = aget d k' := by
  induction d with
  | nil => simp
  | cons p ds ih =>
    by_cases hp : p.1 = k
    · rw [List.map_cons, if_pos hp, aget_cons, aget_cons]
      rw [if_neg (by simpa using Ne.symm h), if_neg (by rw [hp]; exact Ne.symm h)]
      exact ih
    · rw [List.map_cons, if_neg hp, aget_cons, aget_cons]
      by_cases hp' : p.1 = k' <;> simp [hp', ih]

theorem hasKey_map_update {α : Type} (d : List (String × α)) (k k' : String)
    (v : α) :
    hasKey (d.map (fun p => if p.1 = k then (k, v) else p)) k'
      = hasKey d k' := by
  induction d with
  | nil => rfl
  | cons p ds ih =>
    by_cases hp : p.1 = k
    · rw [List.map_cons, if_pos hp, hasKey_cons, hasKey_cons, ih, hp]
    · rw [List.map_cons, if_neg hp, hasKey_cons, hasKey_cons, ih]

theorem hasKey_append {α : Type} (d1 d2 : List (String × α)) (k : String) :
    hasKey (d1 ++ d2) k = (hasKey d1 k || hasKey d2 k) := by
  simp [hasKey]

theorem aget_aset_self {α : Type} (d : List (String × α)) (k : String)
    (v : α) : aget (aset d k v) k = some v := by
  unfold aset
  by_cases hk : hasKey d k
  · simpa [hk] using aget_map_update_self v hk
  · rw [if_neg hk]
    rw [aget_append_right _ (aget_eq_none_of_hasKey_false (by simpa using hk))]
    simp [aget_cons]

theorem aget_aset_ne {α : Type} (d : List (String × α)) {k k' : String}
    (v : α) (h : k' ≠ k) : aget (aset d k v) k' = aget d k' := by
  unfold aset
  by_cases hk : hasKey d k
  · simpa [hk] using aget_map_update_ne h d v
  · rw [if_neg hk]
    exact aget_append_single_ne h d v

theorem hasKey_aset {α : Type} (d : List (String × α)) (k k' : String)
    (v : α) : hasKey (aset d k v) k' = (hasKey d k' || decide (k' = k)) := by
  unfold aset
  by_cases hk : hasKey d k
  · rw [if_pos hk, hasKey_map_update]
    cases hd : decide (k' = k)
    · simp
    · have : k' = k := of_decide_eq_true hd
      subst this
      simp [hk]
  · rw [if_neg hk, hasKey_append, hasKey_cons]
    simp [hasKey, eq_comm]

end Metro

namespace Metro

theorem except_bind_ok {ε α β : Type} (a : α) (f : α → Except ε β) :
    (Except.ok a >>= f : Except ε β) = f a := rfl

theorem except_bind_error {ε α β : Type} (e : ε) (f : α → Except ε β) :
    ((Except.error e : Except ε α) >>= f : Except ε β) = Except.error e := rfl

theorem aget_map_add_self (d : List (String × List Val)) (k : String)
    (v : List Val) :
    aget (d.map (fun p => if p.1 = k then (p.1, p.2 ++ v) else p)) k
      = (aget d k).map (fun w => w ++ v) := by
  induction d with
  | nil => rfl
  | cons p ds ih =>
    by_cases hp : p.1 = k
    · rw [List.map_cons, if_pos hp, aget_cons, aget_cons, if_pos hp, if_pos hp]
      rfl
    · rw [List.map_cons, if_neg hp, aget_cons, aget_cons, if_neg hp, if_neg hp]
      exact ih

theorem aget_map_add_ne {k k' : String} (h : k' ≠ k)
    (d : List (String × List Val)) (v : List Val) :
    aget (d.map (fun p => if p.1 = k then (p.1, p.2 ++ v) else p)) k'
      = aget d k' := by
  induction d with
  | nil => simp
  | cons p ds ih =>
    by_cases hp : p.1 = k
    · rw [List.map_cons, if_pos hp, aget_cons, aget_cons,
        if_neg (by rw [hp]; exact fun hh => h hh.symm),
        if_neg (by rw [hp]; exact fun hh => h hh.symm)]
      exact ih
    · by_cases hp' : p.1 = k' <;>
        simp [aget_cons, hp, hp', h, ih]

theorem hasKey_map_add (d : List (String × List Val)) (k k' : String)
    (v : List Val) :
    hasKey (d.map (fun p => if p.1 = k then (p.1, p.2 ++ v) else p)) k'
      = hasKey d k' := by
  induction d with
  | nil => rfl
  | cons p ds ih =>
    by_cases hp : p.1 = k
    · rw [List.map_cons, if_pos hp, hasKey_cons, hasKey_cons, ih, hp]
    · rw [List.map_cons, if_neg hp, hasKey_cons, hasKey_cons, ih]

/-- Folding `d[k] += v` over incoming entries cannot create a key: a
key absent from the accumulator stays absent in a successful result. -/
theorem foldlM_addTo_none {k : String} :
    ∀ (inc acc d' : List (String × List Val)),
      aget acc k = Option.none →
      inc.foldlM (fun d p => dictAddTo d p.1 p.2) acc = .ok d' →
      aget d' k = Option.none := by
  intro inc
  induction inc with
  | nil =>
    intro acc d' h hok
    have heq : acc = d' := by simpa [pure, Except.pure] using hok
    exact heq ▸ h
  | cons q rest ih =>
    intro acc d' h hok
    rw [List.foldlM_cons] at hok
    cases hq : dictAddTo acc q.1 q.2 with
    | error e => rw [hq, except_bind_error] at hok; exact absurd hok (by simp)
    | ok acc1 =>
      rw [hq, except_bind_ok] at hok
      refine ih acc1 d' ?_ hok
      unfold dictAddTo at hq
      by_cases hk : hasKey acc q.1
      · rw [if_pos hk] at hq
        cases hq
        by_cases hqk : q.1 = k
        · rw [hqk, aget_map_add_self, h]
          rfl
        · rw [aget_map_add_ne (fun hh => hqk hh.symm), h]
      · rw [if_neg hk] at hq
        exact absurd hq (by simp)

end Metro

namespace Metro

/-- Assigning entries with fresh, pairwise-distinct keys into a dict
just appends them in order. -/
theorem foldl_aset_disjoint {α : Type} :
    ∀ (l : List (String × α)) (d : List (String × α)),
      (∀ p ∈ l, hasKey d p.1 = false) → (l.map Prod.fst).Nodup →
      l.foldl (fun d p => aset d p.1 p.2) d = d ++ l := by
  intro l
  induction l with
  | nil => intro d _ _; simp
  | cons p rest ih =>
    intro d hdisj hnodup
    rw [List.map_cons] at hnodup
    have hnd := List.nodup_cons.mp hnodup
    rw [List.foldl_cons]
    have h1 : aset d p.1 p.2 = d ++ [p] := by
      unfold aset
      rw [if_neg (by simp [hdisj p (by simp)])]
    rw [h1, ih (d ++ [p]) ?_ hnd.2]
    · rw [List.append_assoc, List.singleton_append]
    · intro q hq
      rw [hasKey_append, hdisj q (by simp [hq]), hasKey_cons]
      have hne : p.1 ≠ q.1 :=
        fun he => hnd.1 (he ▸ List.mem_map_of_mem Prod.fst hq)
      simp [hasKey, hne]

/-- Folding `d[k] += v` over incoming entries whose keys are all
present in the accumulator and pairwise distinct succeeds, keeps the
key set, and concatenates each incoming sequence onto its entry. -/
theorem foldlM_addTo_char :
    ∀ (inc acc : List (String × List Val)),
      (∀ p ∈ inc, hasKey acc p.1 = true) → (inc.map Prod.fst).Nodup →
      ∃ d', inc.foldlM (fun d p => dictAddTo d p.1 p.2) acc = .ok d' ∧
        (∀ k, aget d' k =
          match aget acc k, aget inc k with
          | some old, some new => some (old ++ new)
          | some old, Option.none => some old
          | Option.none, _ => Option.none) ∧
        (∀ k, hasKey d' k = hasKey acc k) := by
  intro inc
  induction inc with
  | nil =>
    intro acc _ _
    refine ⟨acc, rfl, ?_, fun k => rfl⟩
    intro k
    cases h : aget acc k <;> simp [aget]
  | cons q rest ih =>
    intro acc hpres hnodup
    rw [List.map_cons] at hnodup
    have hnd := List.nodup_cons.mp hnodup
    have hq : hasKey acc q.1 = true := hpres q (by simp)
    have hstep : dictAddTo acc q.1 q.2
        = .ok (acc.map (fun p => if p.1 = q.1 then (p.1, p.2 ++ q.2) else p)) := by
      unfold dictAddTo
      rw [if_pos hq]
    have hkeys1 : ∀ k,
        hasKey (acc.map (fun p => if p.1 = q.1 then (p.1, p.2 ++ q.2) else p)) k
          = hasKey acc k := by
      intro k
      rw [hasKey_map_add]
    obtain ⟨d', hrun, hchar, hkeys⟩ := ih
      (acc.map (fun p => if p.1 = q.1 then (p.1, p.2 ++ q.2) else p))
      (fun p hp => by rw [hkeys1]; exact hpres p (by simp [hp]))
      hnd.2
    refine ⟨d', ?_, ?_, fun k => by rw [hkeys k, hkeys1 k]⟩
    · rw [List.foldlM_cons, hstep, except_bind_ok]
      exact hrun
    · intro k
      rw [hchar k]
      by_cases hk : q.1 = k
      · have hrest : aget rest k = Option.none := by
          rw [aget_none_iff]
          intro p hp he
          exact hnd.1 (by rw [hk, ← he]; exact List.mem_map_of_mem Prod.fst hp)
        rw [aget_cons, if_pos hk, hrest]
        have hsome := (hasKey_iff_isSome acc q.1).mp hq
        cases hacc : aget acc k with
        | none => rw [hk, hacc] at hsome; simp at hsome
        | some old =>
          rw [← hk, aget_map_add_self]
          rw [hk, hacc]
          rfl
      · rw [aget_cons, if_neg hk,
          aget_map_add_ne (fun he => hk he.symm)]

/-- Folding `d[k] += v` over incoming entries one of whose keys is
absent from the accumulator raises `KeyError` (keys are never created
once the dict is non-empty). -/
theorem foldlM_addTo_error :
    ∀ (inc acc : List (String × List Val)),
      (∃ p ∈ inc, hasKey acc p.1 = false) →
      inc.foldlM (fun d p => dictAddTo d p.1 p.2) acc
        = .error PyErr.keyError := by
  intro inc
  induction inc with
  | nil => intro acc h; simp at h
  | cons q rest ih =>
    intro acc h
    rw [List.foldlM_cons]
    by_cases hq : hasKey acc q.1
    · have hstep : dictAddTo acc q.1 q.2
          = .ok (acc.map (fun p => if p.1 = q.1 then (p.1, p.2 ++ q.2) else p)) := by
        unfold dictAddTo
        rw [if_pos hq]
      rw [hstep, except_bind_ok]
      apply ih
      obtain ⟨p, hp, hfalse⟩ := h
      rcases List.mem_cons.mp hp with he | hrest
      · rw [he] at hfalse
        rw [hfalse] at hq
        exact absurd hq (by simp)
      · exact ⟨p, hrest, by rw [hasKey_map_add]; exact hfalse⟩
    · have hstep : dictAddTo acc q.1 q.2 = .error .keyError := by
        unfold dictAddTo
        rw [if_neg (by simpa using hq)]
      rw [hstep, except_bind_error]

end Metro

namespace Metro

/-! ### Claim C2 -/

/-- C2 (counterexample): with a non-empty accumulated mapping, an
incoming station key unseen in it is not inserted as the claim states —
the merge step raises `KeyError` instead. -/
theorem c2_unseen_key_not_inserted :
    mergeStations [("A", [Val.int 1])] [("B", [Val.int 2])]
      = .error PyErr.keyError ∧
    mergeStations [("A", [Val.int 1])] [("B", [Val.int 2])]
      ≠ .ok [("A", [Val.int 1]), ("B", [Val.int 2])] := by
  refine ⟨by decide, by decide⟩

/-- C2 (amended): for a per-file merge step of the aggregator, the time
and date sequences are concatenated onto the running sequences; station
keys are inserted as-is only when the accumulated mapping is empty (the
first successful file); when it is non-empty, an already-present key has
the incoming sequence concatenated onto the existing one and an unseen
key raises an uncaught `KeyError`; merging file A then file B
concatenates per-file outputs in that order, and merging B then A
differs when values differ. -/
theorem c2_merge_step (st : AggState) (times : List Cell)
    (dates : List String) (srd : List (String × List Val)) (fname : String) :
    (st.station_dict = [] → (srd.map Prod.fst).Nodup →
      accumulate st times dates srd fname
        = .ok { time_list := st.time_list ++ times,
                dates_list := st.dates_list ++ dates,
                station_dict := srd,
                notes := st.notes ++ [fname ++ " Summary"] }) ∧
    (st.station_dict ≠ [] → (srd.map Prod.fst).Nodup →
      (∀ p ∈ srd, hasKey st.station_dict p.1 = true) →
      ∃ st', accumulate st times dates srd fname = .ok st' ∧
        st'.time_list = st.time_list ++ times ∧
        st'.dates_list = st.dates_list ++ dates ∧
        (∀ k, aget st'.station_dict k =
          match aget st.station_dict k, aget srd k with
          | some old, some new => some (old ++ new)
          | some old, Option.none => some old
          | Option.none, _ => Option.none)) ∧
    (st.station_dict ≠ [] →
      (∃ p ∈ srd, hasKey st.station_dict p.1 = false) →
      accumulate st times dates srd fname = .error PyErr.keyError) ∧
    ((accumulate
          { time_list := [], dates_list := [], station_dict := [],
            notes := [] }
          [Cell.int 1] ["a"] [("N", [Val.int 1])] "A"
        >>= fun stA => accumulate stA [Cell.int 2] ["b"]
          [("N", [Val.int 2])] "B")
      = .ok { time_list := [Cell.int 1, Cell.int 2],
              dates_list := ["a", "b"],
              station_dict := [("N", [Val.int 1, Val.int 2])],
              notes := ["A Summary", "B Summary"] }) ∧
    ((accumulate
          { time_list := [], dates_list := [], station_dict := [],
            notes := [] }
          [Cell.int 2] ["b"] [("N", [Val.int 2])] "B"
        >>= fun stB => accumulate stB [Cell.int 1] ["a"]
          [("N", [Val.int 1])] "A")
      = .ok { time_list := [Cell.int 2, Cell.int 1],
              dates_list := ["b", "a"],
              station_dict := [("N", [Val.int 2, Val.int 1])],
              notes := ["B Summary", "A Summary"] }) := by
  refine ⟨?_, ?_, ?_, by decide, by decide⟩
  · intro hemp hnodup
    unfold accumulate mergeStations
    rw [hemp]
    rw [List.isEmpty_nil, if_pos rfl]
    rw [foldl_aset_disjoint srd [] (fun p _ => rfl) hnodup]
    rfl
  · intro hne hnodup hpres
    obtain ⟨d', hrun, hchar, _⟩ := foldlM_addTo_char srd st.station_dict
      hpres hnodup
    refine ⟨{ time_list := st.time_list ++ times,
              dates_list := st.dates_list ++ dates,
              station_dict := d',
              notes := st.notes ++ [fname ++ " Summary"] }, ?_, rfl, rfl, hchar⟩
    unfold accumulate mergeStations
    rw [if_neg (by simpa [List.isEmpty_iff] using hne), hrun]
  · intro hne hmiss
    unfold accumulate mergeStations
    rw [if_neg (by simpa [List.isEmpty_iff] using hne),
      foldlM_addTo_error srd st.station_dict hmiss]

/-- Witness for C2 at concrete inputs: an already-present key "N" has
the incoming sequence concatenated onto the existing one. -/
theorem c2_merge_step_witness :
    ∃ st', accumulate
        { time_list := [], dates_list := [],
          station_dict := [("N", [Val.int 1])], notes := [] }
        [Cell.int 2] ["b"] [("N", [Val.int 2])] "B" = .ok st' ∧
      st'.time_list = [] ++ [Cell.int 2] ∧
      st'.dates_list = [] ++ ["b"] ∧
      (∀ k, aget st'.station_dict k =
        match aget [("N", [Val.int 1])] k, aget [("N", [Val.int 2])] k with
        | some old, some new => some (old ++ new)
        | some old, Option.none => some old
        | Option.none, _ => Option.none) :=
  (c2_merge_step
    { time_list := [], dates_list := [],
      station_dict := [("N", [Val.int 1])], notes := [] }
    [Cell.int 2] ["b"] [("N", [Val.int 2])] "B").2.1
    (by decide) (by decide) (by decide)

end Metro

namespace Metro

/-! ### Claim C6 -/

theorem aget_filter_ne {α : Type} (d : List (String × α)) (k : String) :
    aget (d.filter (fun p => p.1 ≠ k)) k = Option.none := by
  rw [aget_none_iff]
  intro p hp
  exact of_decide_eq_true (List.mem_filter.mp hp).2

theorem dictDelete_none {α : Type} {d d' : List (String × α)} {k : String}
    (h : dictDelete d k = .ok d') : aget d' k = Option.none := by
  unfold dictDelete at h
  by_cases hk : hasKey d k
  · rw [if_pos hk] at h
    cases h
    exact aget_filter_ne d k
  · rw [if_neg hk] at h
    exact absurd h (by simp)

theorem extract_ridership_no_exit {cols : List (List Cell)}
    {d : List (String × List Val)} (h : extract_ridership cols = .ok d) :
    aget d "Exit" = Option.none := by
  unfold extract_ridership at h
  cases haux : ridershipAux cols 0 [] cols with
  | error e =>
    rw [haux, except_bind_error] at h
    exact absurd h (by simp)
  | ok d0 =>
    rw [haux, except_bind_ok] at h
    exact dictDelete_none h

theorem aget_foldl_aset_none {α : Type} {k : String} :
    ∀ (l : List (String × α)) (m : List (String × α)),
      (∀ p ∈ l, p.1 ≠ k) → aget m k = Option.none →
      aget (l.foldl (fun m p => aset m p.1 p.2) m) k = Option.none := by
  intro l
  induction l with
  | nil => intro m _ h; exact h
  | cons p rest ih =>
    intro m hne h
    rw [List.foldl_cons]
    refine ih _ (fun q hq => hne q (by simp [hq])) ?_
    rw [aget_aset_ne m p.2 (fun he => hne p (by simp) he.symm)]
    exact h

theorem aget_foldl_aset_station_none {k : String} :
    ∀ (l : List (String × List Val)) (m : List (String × Field)),
      (∀ p ∈ l, p.1 ≠ k) → aget m k = Option.none →
      aget (l.foldl (fun m p => aset m p.1 (Field.station p.2)) m) k
        = Option.none := by
  intro l
  induction l with
  | nil => intro m _ h; exact h
  | cons p rest ih =>
    intro m hne h
    rw [List.foldl_cons]
    refine ih _ (fun q hq => hne q (by simp [hq])) ?_
    rw [aget_aset_ne m (Field.station p.2) (fun he => hne p (by simp) he.symm)]
    exact h

theorem mergeStations_no_key {acc inc sd : List (String × List Val)}
    {k : String} (hacc : aget acc k = Option.none)
    (hinc : aget inc k = Option.none)
    (h : mergeStations acc inc = .ok sd) : aget sd k = Option.none := by
  unfold mergeStations at h
  by_cases he : acc.isEmpty
  · rw [if_pos he] at h
    cases h
    exact aget_foldl_aset_none inc acc ((aget_none_iff inc k).mp hinc) hacc
  · rw [if_neg he] at h
    exact foldlM_addTo_none inc acc sd hacc h

theorem tryBody_no_exit {st st' : AggState} {f : ExcelFile}
    (hst : aget st.station_dict "Exit" = Option.none)
    (h : tryBody st f = .ok st') :
    aget st'.station_dict "Exit" = Option.none := by
  unfold tryBody at h
  cases hpf : processFile f with
  | error e => rw [hpf, except_bind_error] at h; exact absurd h (by simp)
  | ok r =>
    rw [hpf, except_bind_ok] at h
    have hexit : aget r.2.2 "Exit" = Option.none := by
      unfold processFile get_col_rows at hpf
      cases hc : f.content with
      | daily g =>
        rw [hc, except_bind_ok] at hpf
        cases hex : extract_ridership (tableColsOf g) with
        | error e =>
          rw [hex, except_bind_error] at hpf
          exact absurd hpf (by simp)
        | ok srd =>
          rw [hex, except_bind_ok] at hpf
          rw [← Except.ok.inj hpf]
          exact extract_ridership_no_exit hex
      | unreadable =>
        rw [hc, except_bind_error] at hpf
        exact absurd hpf (by simp)
      | parseError =>
        rw [hc, except_bind_error] at hpf
        exact absurd hpf (by simp)
      | noDaily =>
        rw [hc, except_bind_error] at hpf
        exact absurd hpf (by simp)
    unfold accumulate at h
    cases hm : mergeStations st.station_dict r.2.2 with
    | error e => rw [hm] at h; exact absurd h (by simp)
    | ok sd =>
      rw [hm] at h
      cases h
      exact mergeStations_no_key hst hexit hm

theorem compileStep_no_exit {st st' : AggState} {f : ExcelFile}
    (hst : aget st.station_dict "Exit" = Option.none)
    (h : compileStep st f = .ok st') :
    aget st'.station_dict "Exit" = Option.none := by
  unfold compileStep at h
  cases ht : tryBody st f with
  | ok st1 =>
    rw [ht] at h
    cases h
    exact tryBody_no_exit hst ht
  | error e =>
    rw [ht] at h
    cases e with
    | valueError =>
      cases h
      exact hst
    | keyError => exact absurd h (by simp)
    | indexError => exact absurd h (by simp)
    | invalidFile => exact absurd h (by simp)

theorem compile_values_no_exit :
    ∀ (files : List ExcelFile) (st0 st : AggState),
      aget st0.station_dict "Exit" = Option.none →
      files.foldlM compileStep st0 = .ok st →
      aget st.station_dict "Exit" = Option.none := by
  intro files
  induction files with
  | nil =>
    intro st0 st h hok
    have : st0 = st := by simpa [pure, Except.pure] using hok
    exact this ▸ h
  | cons f rest ih =>
    intro st0 st h hok
    rw [List.foldlM_cons] at hok
    cases hstep : compileStep st0 f with
    | error e => rw [hstep, except_bind_error] at hok; exact absurd hok (by simp)
    | ok st1 =>
      rw [hstep, except_bind_ok] at hok
      exact ih st1 st (compileStep_no_exit h hstep) hok

/-- C6: `extract_ridership` removes "Exit" from the per-file station
mapping before returning it, and for every completed run the exported
mapping contains no "Exit" key. -/
theorem c6_exit_never_exported :
    (∀ (colList : List (List Cell)) (d : List (String × List Val)),
      extract_ridership colList = .ok d → aget d "Exit" = Option.none) ∧
    (∀ (files : List ExcelFile) (st : AggState),
      compile_values files = .ok st →
      aget (merge_to_json st.time_list st.dates_list st.station_dict)
          "Exit" = Option.none) := by
  constructor
  · intro colList d h
    exact extract_ridership_no_exit h
  · intro files st h
    have hdict : aget st.station_dict "Exit" = Option.none :=
      compile_values_no_exit files
        { time_list := [], dates_list := [], station_dict := [], notes := [] }
        st rfl h
    unfold merge_to_json
    refine aget_foldl_aset_station_none st.station_dict _
      ((aget_none_iff _ _).mp hdict) ?_
    rw [aget_aset_ne _ (Field.times st.time_list) (by decide),
      aget_aset_ne _ (Field.dates st.dates_list) (by decide)]
    rfl

/-- Witness for C6 on a concrete completed run: the exported mapping of
the one-file batch over the small valid workbook has no "Exit" key. -/
theorem c6_witness :
    aget (merge_to_json
        { time_list := [Cell.int 8], dates_list := ["2023-02-1"],
          station_dict := [("Entry", []), ("S", [Val.int 3])],
          notes := ["2023-02.xlsx Summary"] : AggState }.time_list
        { time_list := [Cell.int 8], dates_list := ["2023-02-1"],
          station_dict := [("Entry", []), ("S", [Val.int 3])],
          notes := ["2023-02.xlsx Summary"] : AggState }.dates_list
        { time_list := [Cell.int 8], dates_list := ["2023-02-1"],
          station_dict := [("Entry", []), ("S", [Val.int 3])],
          notes := ["2023-02.xlsx Summary"] : AggState }.station_dict)
      "Exit" = Option.none :=
  c6_exit_never_exported.2 [⟨"2023-02.xlsx", FileContent.daily smallGrid⟩]
    { time_list := [Cell.int 8], dates_list := ["2023-02-1"],
      station_dict := [("Entry", []), ("S", [Val.int 3])],
      notes := ["2023-02.xlsx Summary"] } (by decide)

end Metro

namespace Metro

/-! ### Claim C9 -/

theorem columnScanAux_nil (ref : List Cell) (idx : Nat) (vals : List Val)
    (strs : List String) :
    columnScanAux ref idx vals strs [] = .ok (vals, strs) := rfl

theorem columnScanAux_cons (ref : List Cell) (idx : Nat) (vals : List Val)
    (strs : List String) (cell : Cell) (rest : List Cell) :
    columnScanAux ref idx vals strs (cell :: rest) = (do
      let referenceCell ← pyGet ref idx
      let vals' := if cell.isNone then
          (if referenceCell.isInt then vals ++ [Val.nan] else vals)
        else vals
      let vals'' := (match cell with
        | .int n => vals' ++ [Val.int n]
        | _ => vals')
      let strs' := (match cell with
        | .str s => strs ++ [s]
        | _ => strs)
      columnScanAux ref (idx + 1) vals'' strs' rest) := rfl

theorem ridershipAux_nil (colList : List (List Cell)) (idx : Nat)
    (d : List (String × List Val)) :
    ridershipAux colList idx d [] = .ok d := rfl

theorem ridershipAux_cons (colList : List (List Cell)) (idx : Nat)
    (d : List (String × List Val)) (col : List Cell)
    (rest : List (List Cell)) :
    ridershipAux colList idx d (col :: rest) = (do
      let ref ← pyGet colList (pyRefIndex colList.length idx)
      let scanned ← columnScanAux ref 0 [] [] col
      let stationName ← pyGet scanned.2 0
      ridershipAux colList (idx + 1) (aset d stationName scanned.1) rest) := rfl

theorem pyGet_error {α : Type} {l : List α} {i : Nat} {e : PyErr}
    (h : pyGet l i = .error e) : e = PyErr.indexError := by
  unfold pyGet at h
  cases hg : l.get? i with
  | none =>
    rw [hg] at h
    exact (Except.error.inj h).symm
  | some x =>
    rw [hg] at h
    exact absurd h (by simp)

theorem columnScanAux_error :
    ∀ (col ref : List Cell) (idx : Nat) (vals : List Val)
      (strs : List String) (e : PyErr),
      columnScanAux ref idx vals strs col = .error e →
      e = PyErr.indexError := by
  intro col
  induction col with
  | nil =>
    intro ref idx vals strs e h
    rw [columnScanAux_nil] at h
    exact absurd h (by simp)
  | cons cell rest ih =>
    intro ref idx vals strs e h
    rw [columnScanAux_cons] at h
    cases hg : pyGet ref idx with
    | error e' =>
      rw [hg, except_bind_error] at h
      rw [← Except.error.inj h]
      exact pyGet_error hg
    | ok rc =>
      rw [hg, except_bind_ok] at h
      exact ih ref (idx + 1) _ _ e h

theorem columnScanAux_strs :
    ∀ (col ref : List Cell) (idx : Nat) (vals : List Val)
      (strs : List String) (out : List Val × List String),
      columnScanAux ref idx vals strs col = .ok out →
      out.2 = strs ++ colTexts col := by
  intro col
  induction col with
  | nil =>
    intro ref idx vals strs out h
    rw [columnScanAux_nil] at h
    rw [← Except.ok.inj h]
    simp [colTexts]
  | cons cell rest ih =>
    intro ref idx vals strs out h
    rw [columnScanAux_cons] at h
    cases hg : pyGet ref idx with
    | error e =>
      rw [hg, except_bind_error] at h
      exact absurd h (by simp)
    | ok rc =>
      rw [hg, except_bind_ok] at h
      cases cell with
      | int n => simpa [colTexts] using ih ref (idx + 1) _ _ out h
      | str s =>
        have := ih ref (idx + 1) _ _ out h
        rw [this]
        simp [colTexts]
      | none => simpa [colTexts] using ih ref (idx + 1) _ _ out h

theorem colTexts_eq_nil {col : List Cell}
    (h : ∀ c ∈ col, c.isStr = false) : colTexts col = [] := by
  unfold colTexts
  rw [List.filterMap_eq_nil_iff]
  intro c hc
  cases c with
  | str s => exact absurd (h _ hc) (by simp [Cell.isStr])
  | int n => rfl
  | none => rfl

theorem ridershipAux_textless :
    ∀ (cols colList : List (List Cell)) (idx : Nat)
      (d : List (String × List Val)),
      (∃ col ∈ cols, ∀ c ∈ col, c.isStr = false) →
      ridershipAux colList idx d cols = .error PyErr.indexError := by
  intro cols
  induction cols with
  | nil => intro colList idx d h; simp at h
  | cons col' rest ih =>
    intro colList idx d h
    rw [ridershipAux_cons]
    cases hg : pyGet colList (pyRefIndex colList.length idx) with
    | error e =>
      rw [except_bind_error, pyGet_error hg]
    | ok ref =>
      rw [except_bind_ok]
      cases hscan : columnScanAux ref 0 [] [] col' with
      | error e =>
        rw [except_bind_error,
          columnScanAux_error col' ref 0 [] [] e hscan]
      | ok out =>
        rw [except_bind_ok]
        rcases h with ⟨col'', hmem, htl⟩
        rcases List.mem_cons.mp hmem with he | hrest
        · have hstrs : out.2 = [] := by
            rw [columnScanAux_strs col' ref 0 [] [] out hscan,
              colTexts_eq_nil (he ▸ htl)]
            rfl
          rw [hstrs]
          rfl
        · cases hname : pyGet out.2 0 with
          | error e =>
            rw [except_bind_error, pyGet_error hname]
          | ok nm =>
            rw [except_bind_ok]
            exact ih colList (idx + 1) _ ⟨col'', hrest, htl⟩

/-- C9: a column containing no text cell makes `extract_ridership` fail
with an `IndexError` (at `str_list[0]`, or at a reference-cell read
that precedes it) — it never returns a mapping with an unlabeled series
for that column. -/
theorem c9_unlabeled_column_faults (colList : List (List Cell))
    (col : List Cell) (hmem : col ∈ colList)
    (htext : ∀ c ∈ col, c.isStr = false) :
    extract_ridership colList = .error PyErr.indexError := by
  unfold extract_ridership
  rw [ridershipAux_textless colList colList 0 [] ⟨col, hmem, htext⟩,
    except_bind_error]

/-- Witness for C9: the single all-numeric column `[5]` has no text
cell and the extraction faults with `IndexError`. -/
theorem c9_witness :
    extract_ridership [[Cell.int 5]] = .error PyErr.indexError :=
  c9_unlabeled_column_faults [[Cell.int 5]] [Cell.int 5] (by decide)
    (by decide)

end Metro

namespace Metro

/-! ### Claim C10 -/

theorem pyGet_ok {α : Type} {l : List α} {i : Nat} (h : i < l.length) :
    ∃ x, pyGet l i = .ok x := by
  unfold pyGet
  rw [List.get?_eq_get h]
  exact ⟨_, rfl⟩

/-- Any successful `ridershipAux` run only adds keys that are first
text cells of the processed columns. -/
theorem ridershipAux_keys :
    ∀ (cols colList : List (List Cell)) (idx : Nat)
      (d d' : List (String × List Val)),
      ridershipAux colList idx d cols = .ok d' →
      ∀ k, hasKey d' k = true →
        hasKey d k = true ∨ ∃ col ∈ cols, firstText col = some k := by
  intro cols
  induction cols with
  | nil =>
    intro colList idx d d' h k hk
    rw [ridershipAux_nil] at h
    rw [← Except.ok.inj h] at hk
    exact Or.inl hk
  | cons col' rest ih =>
    intro colList idx d d' h k hk
    rw [ridershipAux_cons] at h
    cases hg : pyGet colList (pyRefIndex colList.length idx) with
    | error e =>
      rw [hg, except_bind_error] at h
      exact absurd h (by simp)
    | ok ref =>
      rw [hg, except_bind_ok] at h
      cases hscan : columnScanAux ref 0 [] [] col' with
      | error e =>
        rw [hscan, except_bind_error] at h
        exact absurd h (by simp)
      | ok out =>
        rw [hscan, except_bind_ok] at h
        cases hname : pyGet out.2 0 with
        | error e =>
          rw [hname, except_bind_error] at h
          exact absurd h (by simp)
        | ok nm =>
          rw [hname, except_bind_ok] at h
          have hfir : firstText col' = some nm := by
            have hstrs := columnScanAux_strs col' ref 0 [] [] out hscan
            unfold pyGet at hname
            cases hg2 : out.2.get? 0 with
            | none =>
              rw [hg2] at hname
              exact absurd hname (by simp)
            | some x =>
              rw [hg2] at hname
              unfold firstText
              rw [List.head?_eq_getElem?, ← List.get?_eq_getElem?]
              have hout2 : out.2 = colTexts col' := by
                rw [hstrs]
                rfl
              rw [← hout2, hg2, Except.ok.inj hname]
          rcases ih colList (idx + 1) _ d' h k hk with hd | hcols
          · rw [hasKey_aset] at hd
            simp at hd
            rcases hd with hd1 | hd2
            · exact Or.inl hd1
            · refine Or.inr ⟨col', by simp, ?_⟩
              rw [hfir, hd2]
          · obtain ⟨c, hcmem, hcf⟩ := hcols
            exact Or.inr ⟨c, by simp [hcmem], hcf⟩

/-- A successful extraction implies some column's first text cell is
exactly "Exit" (otherwise the unconditional deletion raises). -/
theorem extract_ridership_ok_exit {colList : List (List Cell)}
    {d : List (String × List Val)} (h : extract_ridership colList = .ok d) :
    ∃ col ∈ colList, firstText col = some "Exit" := by
  unfold extract_ridership at h
  cases haux : ridershipAux colList 0 [] colList with
  | error e =>
    rw [haux, except_bind_error] at h
    exact absurd h (by simp)
  | ok d0 =>
    rw [haux, except_bind_ok] at h
    have hk : hasKey d0 "Exit" = true := by
      by_cases hkk : hasKey d0 "Exit"
      · exact hkk
      · unfold dictDelete at h
        rw [if_neg hkk] at h
        exact absurd h (by simp)
    rcases ridershipAux_keys colList colList 0 [] d0 haux "Exit" hk with
      h0 | hex
    · exact absurd h0 (by simp [hasKey])
    · exact hex

theorem columnScanAux_ok :
    ∀ (col ref : List Cell) (idx : Nat) (vals : List Val)
      (strs : List String),
      idx + col.length ≤ ref.length →
      ∃ out, columnScanAux ref idx vals strs col = .ok out := by
  intro col
  induction col with
  | nil => intro ref idx vals strs _; exact ⟨(vals, strs), rfl⟩
  | cons cell rest ih =>
    intro ref idx vals strs h
    rw [columnScanAux_cons]
    have hidx : idx < ref.length := by
      simp only [List.length_cons] at h
      omega
    obtain ⟨rc, hg⟩ := pyGet_ok hidx
    rw [hg, except_bind_ok]
    exact ih ref (idx + 1) _ _
      (by simp only [List.length_cons] at h; omega)

theorem tableColsOf_length {g : List (List Cell)} :
    ∀ c ∈ tableColsOf g, c.length = g.length := by
  intro c hc
  unfold tableColsOf at hc
  obtain ⟨j, _, hj⟩ := List.mem_map.mp hc
  rw [← hj]
  simp

/-- When every column of the view has a text cell and all columns have
the workbook's uniform length, the column loop succeeds. -/
theorem ridershipAux_ok :
    ∀ (cols colList : List (List Cell)) (idx : Nat)
      (d : List (String × List Val)) (n : Nat),
      (∀ c ∈ colList, c.length = n) →
      (∀ c ∈ cols, c.length = n ∧ (firstText c).isSome = true) →
      idx + cols.length = colList.length →
      ∃ d', ridershipAux colList idx d cols = .ok d' := by
  intro cols
  induction cols with
  | nil => intro colList idx d n _ _ _; exact ⟨d, rfl⟩
  | cons col' rest ih =>
    intro colList idx d n hlen hcols hinv
    rw [ridershipAux_cons]
    have hn : 1 ≤ colList.length := by
      simp only [List.length_cons] at hinv
      omega
    have href : pyRefIndex colList.length idx < colList.length := by
      unfold pyRefIndex
      simp only [List.length_cons] at hinv
      by_cases h0 : idx = 0 <;> simp [h0] <;> omega
    obtain ⟨ref, hg⟩ := pyGet_ok href
    rw [hg, except_bind_ok]
    have hrefmem : ref ∈ colList := by
      unfold pyGet at hg
      cases hg2 : colList.get? (pyRefIndex colList.length idx) with
      | none =>
        rw [hg2] at hg
        exact absurd hg (by simp)
      | some x =>
        rw [hg2] at hg
        rw [← Except.ok.inj hg]
        exact List.get?_mem hg2
    have hcol := hcols col' (by simp)
    obtain ⟨out, hscan⟩ := columnScanAux_ok col' ref 0 [] []
      (by rw [hlen ref hrefmem, hcol.1]; omega)
    rw [hscan, except_bind_ok]
    have hstrs := columnScanAux_strs col' ref 0 [] [] out hscan
    have hlen2 : 0 < out.2.length := by
      rw [hstrs]
      have h2 := hcol.2
      unfold firstText at h2
      cases hct : colTexts col' with
      | nil => rw [hct] at h2; exact absurd h2 (by simp)
      | cons a l => simp [hct]
    obtain ⟨nm, hname⟩ := pyGet_ok hlen2
    rw [hname, except_bind_ok]
    exact ih colList (idx + 1) _ n hlen
      (fun c hc => hcols c (by simp [hc]))
      (by simp only [List.length_cons] at hinv ⊢; omega)

/-- On a workbook column view whose columns are all labeled but none
labeled "Exit", the extraction reaches the unconditional deletion and
raises `KeyError`. -/
theorem extract_ridership_keyError (g : List (List Cell))
    (hlab : ∀ col ∈ tableColsOf g, (firstText col).isSome = true)
    (hnoexit : ∀ col ∈ tableColsOf g, firstText col ≠ some "Exit") :
    extract_ridership (tableColsOf g) = .error PyErr.keyError := by
  unfold extract_ridership
  obtain ⟨d', hok⟩ := ridershipAux_ok (tableColsOf g) (tableColsOf g) 0 []
    g.length tableColsOf_length
    (fun c hc => ⟨tableColsOf_length c hc, hlab c hc⟩) (by omega)
  rw [hok, except_bind_ok]
  have hkey : ¬hasKey d' "Exit" = true := by
    intro hk
    rcases ridershipAux_keys (tableColsOf g) (tableColsOf g) 0 [] d' hok
        "Exit" hk with h0 | ⟨col, hcmem, hfir⟩
    · exact absurd h0 (by simp [hasKey])
    · exact hnoexit col hcmem hfir
  unfold dictDelete
  rw [if_neg hkey]

/-- A `KeyError` escaping one file's processing aborts the whole rest
of the batch. -/
theorem compileBatch_aborts (pre : List ExcelFile) (f : ExcelFile)
    (post : List ExcelFile) (st : AggState)
    (hpre : compile_values pre = .ok st)
    (hf : compileStep st f = .error PyErr.keyError) :
    compile_values (pre ++ f :: post) = .error PyErr.keyError := by
  unfold compile_values at hpre ⊢
  rw [List.foldlM_append, hpre, except_bind_ok, List.foldlM_cons, hf,
    except_bind_error]

/-- C10 (counterexample): a column list with no "Exit"-labeled column
need not raise `KeyError` — a textless column raises `IndexError`
first. -/
theorem c10_not_always_keyError :
    firstText [Cell.int 9] ≠ some "Exit" ∧
    extract_ridership [[Cell.int 9]] = .error PyErr.indexError ∧
    extract_ridership [[Cell.int 9]] ≠ .error PyErr.keyError := by
  refine ⟨by decide, by decide, by decide⟩

/-- C10 (amended): `extract_ridership` returns successfully only when
some column's first text cell is exactly "Exit"; a workbook column view
in which every column has a text cell but none is labeled "Exit"
raises `KeyError` at the unconditional deletion (a textless column
raises `IndexError` instead); and a `KeyError` is not caught by
`compile_values` (which catches only `ValueError`), so one such file
aborts the remaining batch. -/
theorem c10_exit_required (colList : List (List Cell))
    (d : List (String × List Val)) (g : List (List Cell))
    (pre : List ExcelFile) (f : ExcelFile) (post : List ExcelFile)
    (st : AggState) :
    (extract_ridership colList = .ok d →
      ∃ col ∈ colList, firstText col = some "Exit") ∧
    ((∀ col ∈ tableColsOf g, (firstText col).isSome = true) →
      (∀ col ∈ tableColsOf g, firstText col ≠ some "Exit") →
      extract_ridership (tableColsOf g) = .error PyErr.keyError) ∧
    (compile_values pre = .ok st →
      compileStep st f = .error PyErr.keyError →
      compile_values (pre ++ f :: post) = .error PyErr.keyError) := by
  refine ⟨fun h => extract_ridership_ok_exit h,
    fun h1 h2 => extract_ridership_keyError g h1 h2,
    fun h1 h2 => compileBatch_aborts pre f post st h1 h2⟩

/-- Witness for C10: a one-row two-station grid with labels "A" and no
"Exit" makes the extraction raise `KeyError`. -/
theorem c10_witness :
    extract_ridership (tableColsOf [Cell.none :: List.replicate 26
        (Cell.str "A")]) = .error PyErr.keyError :=
  (c10_exit_required [] [] [Cell.none :: List.replicate 26 (Cell.str "A")]
      [] ⟨"x", FileContent.noDaily⟩ []
      { time_list := [], dates_list := [], station_dict := [],
        notes := [] }).2.1
    (by decide) (by decide)

end Metro
